import Mathlib

/-!
Shallow embedding of `mbeval/src/tablebase.rs` (the table registry, selection
engine and probe orchestrator of the `op1` tablebase prober).

Conventions of the embedding:
* Rust `u64` indices are `Nat`; the all-ones sentinel `!0u64` is the constant
  `ALL_ONES = 2^64 - 1`.  Rust `i32`/`c_int` classifier codes are `Int`, and the
  `as u32` cast used by the `TryFrom` impls is modelled as `% 2^32`.
* The opened table handle (`crate::table::Table`, a file not part of the probed
  sources) is abstracted to a `Nat` identifier; opening a file and reading a
  value are parameters `openFn : String → Except IOErr Nat` and
  `readMb : Nat → Nat → Except IOErr MbValue`.
* The external native classifier `mbeval_get_mb_info` is a parameter
  `classify : Position → Option MBInfo`, `none` standing for a non-zero status.
* `HashMap<TableKey, (PathBuf, OnceCell<Table>)>` is an association list whose
  entries carry the path and the once-cell state (`Option Nat`); the registry
  state additionally carries a ghost counter `opens` of file-open calls, used
  only to state the "no filesystem access" claims.
* Rust panics (`.expect(..)`) surface as the `PResult.panicked` outcome.
-/

set_option autoImplicit false

namespace MbTb

/-- Chess colors, as in the `shakmaty` library used by the source. -/
inductive Color where
  | White
  | Black
deriving DecidableEq, Repr

/-- `shakmaty::Color::not` (the `!color` in `parse_material`). -/
def Color.other : Color → Color
  | .White => .Black
  | .Black => .White

/-- `shakmaty::Color::fold_wb`: pick the first value for white, second for black. -/
def Color.fold_wb {α : Type} : Color → α → α → α
  | .White, w, _ => w
  | .Black, _, b => b

/-- Piece roles, as in the `shakmaty` library used by the source. -/
inductive Role where
  | Pawn
  | Knight
  | Bishop
  | Rook
  | Queen
  | King
deriving DecidableEq, Repr

/-- `shakmaty::Role::from_char`: the role letter decoder used by
`parse_material` (case-insensitive). -/
def Role.from_char : Char → Option Role
  | 'p' => some .Pawn
  | 'P' => some .Pawn
  | 'n' => some .Knight
  | 'N' => some .Knight
  | 'b' => some .Bishop
  | 'B' => some .Bishop
  | 'r' => some .Rook
  | 'R' => some .Rook
  | 'q' => some .Queen
  | 'Q' => some .Queen
  | 'k' => some .King
  | 'K' => some .King
  | _ => none

/-- `shakmaty::ByColor`: a pair of values indexed by color. -/
structure ByColor (α : Type) where
  white : α
  black : α
deriving DecidableEq, Repr

/-- Indexing a `ByColor` by a color (`by_color` in the source). -/
def ByColor.get {α : Type} (b : ByColor α) : Color → α
  | .White => b.white
  | .Black => b.black

/-- `shakmaty::ByRole`: one value per piece role. -/
structure ByRole (α : Type) where
  pawn : α
  knight : α
  bishop : α
  rook : α
  queen : α
  king : α
deriving DecidableEq, Repr

/-- Indexing a `ByRole` by a role. -/
def ByRole.get {α : Type} (m : ByRole α) : Role → α
  | .Pawn => m.pawn
  | .Knight => m.knight
  | .Bishop => m.bishop
  | .Rook => m.rook
  | .Queen => m.queen
  | .King => m.king

/-- Bump the count of one role (`material[color][role] += 1` acting on one side). -/
def ByRole.bump (m : ByRole Nat) : Role → ByRole Nat
  | .Pawn => { m with pawn := m.pawn + 1 }
  | .Knight => { m with knight := m.knight + 1 }
  | .Bishop => { m with bishop := m.bishop + 1 }
  | .Rook => { m with rook := m.rook + 1 }
  | .Queen => { m with queen := m.queen + 1 }
  | .King => { m with king := m.king + 1 }

/-- Total number of pieces of one side (popcount of that side's bitboard). -/
def ByRole.total (m : ByRole Nat) : Nat :=
  m.pawn + m.knight + m.bishop + m.rook + m.queen + m.king

/-- `type Material = ByColor<ByRole<u8>>`: per-side piece-role counts. -/
def Material : Type := ByColor (ByRole Nat)

instance : DecidableEq Material := fun a b =>
  inferInstanceAs (Decidable (ByColor.mk a.white a.black = ByColor.mk b.white b.black))

/-- `Material::default()`: all counts zero. -/
def Material.default : Material :=
  { white := ⟨0, 0, 0, 0, 0, 0⟩, black := ⟨0, 0, 0, 0, 0, 0⟩ }

/-- `material[color][role] += 1` from `parse_material`. -/
def Material.bump (m : Material) (c : Color) (r : Role) : Material :=
  match c with
  | .White => { m with white := m.white.bump r }
  | .Black => { m with black := m.black.bump r }

/-- Total piece count on the board (`board.occupied().count()`). -/
def Material.totalCount (m : Material) : Nat :=
  m.white.total + m.black.total

/-- Bishop-parity variant tag of a table (`enum BishopParity`). -/
inductive BishopParity where
  | None
  | Even
  | Odd
deriving DecidableEq, Repr

/-- Pawn-file variant tag of a table (`enum PawnFileType`, 16 variants). -/
inductive PawnFileType where
  | Free
  | Bp1
  | Op1
  | Op21
  | Op12
  | Op22
  | Dp2
  | Op31
  | Op13
  | Op41
  | Op14
  | Op32
  | Op23
  | Op33
  | Op42
  | Op24
deriving DecidableEq, Repr

/-- `struct KkIndex(u32)`: king-configuration bucket. -/
structure KkIndex where
  val : Nat
deriving DecidableEq, Repr

/-- `enum TableType`: primary (`.mb`) vs high-dtc overflow (`.hi`) table kind. -/
inductive TableType where
  | Mb
  | HighDtc
deriving DecidableEq, Repr

/-- `struct TableKey`: the unique identifier of one on-disk table. -/
structure TableKey where
  material : Material
  pawn_file_type : PawnFileType
  bishop_parity : ByColor BishopParity
  side : Color
  kk_index : KkIndex
  table_type : TableType
deriving DecidableEq

/-- Abstract I/O error (`std::io::Error`), identified by a code. -/
structure IOErr where
  code : Nat
deriving DecidableEq, Repr

deriving instance DecidableEq for Except

/-- One registry entry: file path plus the once-cell holding the opened table
handle (`(PathBuf, OnceCell<Table>)`); `none` = cell not yet initialized. -/
def Entry : Type := String × Option Nat

instance : DecidableEq Entry :=
  inferInstanceAs (DecidableEq (String × Option Nat))

/-- `struct Tablebase { tables: HashMap<TableKey, (PathBuf, OnceCell<Table>)> }`,
as an association list, together with a ghost counter of file-open calls used
only to express the "no filesystem access" properties. -/
structure Tablebase where
  tables : List (TableKey × Entry)
  opens : Nat
deriving DecidableEq

/-- `HashMap::get`: first entry with the given key. -/
def findEntry : List (TableKey × Entry) → TableKey → Option Entry
  | [], _ => none
  | (k2, e) :: rest, k => if k2 = k then some e else findEntry rest k

/-- Fill the once-cell of the entry with the given key (`OnceCell` becoming
initialized with the freshly opened handle). -/
def setCell : List (TableKey × Entry) → TableKey → Nat → List (TableKey × Entry)
  | [], _, _ => []
  | (k2, path, cell) :: rest, k, t =>
    if k2 = k then (k2, path, some t) :: rest
    else (k2, path, cell) :: setCell rest k t

/-- `HashMap::insert` with a fresh once-cell, as done during registration. -/
def insertTable : List (TableKey × Entry) → TableKey → String → List (TableKey × Entry)
  | [], k, path => [(k, path, none)]
  | (k2, e) :: rest, k, path =>
    if k2 = k then (k, path, none) :: rest
    else (k2, e) :: insertTable rest k path

/-- `Tablebase::open_table`: look the key up in the registry; absent keys give
`none`; present keys lazily open the file at most once
(`table.get_or_try_init(|| Table::open(path))`).  A failed open leaves the cell
uninitialized (as `OnceCell::get_or_try_init` does) and propagates the error.
Returns the result together with the updated registry state. -/
def open_table (openFn : String → Except IOErr Nat) (tb : Tablebase) (key : TableKey) :
    Except IOErr (Option Nat) × Tablebase :=
  match findEntry tb.tables key with
  | none => (.ok none, tb)
  | some (_, some t) => (.ok (some t), tb)
  | some (path, none) =>
    match openFn path with
    | .ok t => (.ok (some t), { tables := setCell tb.tables key t, opens := tb.opens + 1 })
    | .error e => (.error e, { tb with opens := tb.opens + 1 })

/-- The all-ones `u64` sentinel (`const ALL_ONES: u64 = !0`), meaning "index
not applicable". -/
def ALL_ONES : Nat := 2 ^ 64 - 1

/-- Modelled from the spec: the `mbeval_sys` bishop-parity enumeration codes
(`NONE`, `EVEN`, `ODD`) come from the external native classifier's headers,
which are not among the probed sources; only their distinctness matters to the
selection engine, so they are fixed to three distinct naturals here. -/
def parityNONE : Nat := 0

/-- Modelled from the spec: external `mbeval_sys::EVEN` code. -/
def parityEVEN : Nat := 1

/-- Modelled from the spec: external `mbeval_sys::ODD` code. -/
def parityODD : Nat := 2

/-- Modelled from the spec: the 16 external `mbeval_sys` pawn-file-type codes
(`FREE_PAWNS`, `BP_11_PAWNS`, ..., `OP_24_PAWNS`), fixed to 16 distinct
naturals in the order of the source's `TryFrom` match. -/
def pawnCode : PawnFileType → Nat
  | .Free => 0
  | .Bp1 => 1
  | .Op1 => 2
  | .Op21 => 3
  | .Op12 => 4
  | .Op22 => 5
  | .Dp2 => 6
  | .Op31 => 7
  | .Op13 => 8
  | .Op41 => 9
  | .Op14 => 10
  | .Op32 => 11
  | .Op23 => 12
  | .Op33 => 13
  | .Op42 => 14
  | .Op24 => 15

/-- The `v as u32` cast applied to the `i32` classifier codes. -/
def asU32 (v : Int) : Nat :=
  (v % (2 ^ 32 : Int)).toNat

/-- `TryFrom<i32> for BishopParity`: succeeds exactly on the three
bishop-parity codes. -/
def BishopParity.tryFrom (v : Int) : Option BishopParity :=
  if asU32 v = parityNONE then some .None
  else if asU32 v = parityEVEN then some .Even
  else if asU32 v = parityODD then some .Odd
  else none

/-- `TryFrom<i32> for PawnFileType`: succeeds exactly on the 16 pawn-file-type
codes. -/
def PawnFileType.tryFrom (v : Int) : Option PawnFileType :=
  if asU32 v = pawnCode .Free then some .Free
  else if asU32 v = pawnCode .Bp1 then some .Bp1
  else if asU32 v = pawnCode .Op1 then some .Op1
  else if asU32 v = pawnCode .Op21 then some .Op21
  else if asU32 v = pawnCode .Op12 then some .Op12
  else if asU32 v = pawnCode .Op22 then some .Op22
  else if asU32 v = pawnCode .Dp2 then some .Dp2
  else if asU32 v = pawnCode .Op31 then some .Op31
  else if asU32 v = pawnCode .Op13 then some .Op13
  else if asU32 v = pawnCode .Op41 then some .Op41
  else if asU32 v = pawnCode .Op14 then some .Op14
  else if asU32 v = pawnCode .Op32 then some .Op32
  else if asU32 v = pawnCode .Op23 then some .Op23
  else if asU32 v = pawnCode .Op33 then some .Op33
  else if asU32 v = pawnCode .Op42 then some .Op42
  else if asU32 v = pawnCode .Op24 then some .Op24
  else none

/-- One candidate bishop-parity pair of the classifier output
(`mb_info.parity_index[i]`): the two raw parity codes (white then black, i.e.
`bishop_parity[0]` and `bishop_parity[1]`) and the associated lookup index. -/
structure ParityIndex where
  bishopParityW : Int
  bishopParityB : Int
  index : Nat
deriving DecidableEq, Repr

/-- The fields of the external classifier's `MB_INFO` struct that the
selection engine consumes.  `parity_index` is a list whose first
`num_parities` elements are the candidate bishop-parity pairs (in the C struct
it is a fixed-size array sliced as `[..num_parities]`). -/
structure MBInfo where
  kk_index : Nat
  num_parities : Nat
  parity_index : List ParityIndex
  pawn_file_type : Int
  index_op_11 : Nat
  index_bp_11 : Nat
  index_op_21 : Nat
  index_op_12 : Nat
  index_op_22 : Nat
  index_dp_22 : Nat
  index_op_31 : Nat
  index_op_13 : Nat
  index_op_41 : Nat
  index_op_14 : Nat
  index_op_32 : Nat
  index_op_23 : Nat
  index_op_33 : Nat
  index_op_42 : Nat
  index_op_24 : Nat
deriving DecidableEq, Repr

/-- Result of a Rust computation that may panic (`.expect(..)`). -/
inductive PResult (α : Type) where
  | panicked
  | ok (a : α)
deriving DecidableEq, Repr

/-- Outcome of the bishop-parity candidate loop at the top of `select_table`:
a panic from an out-of-range parity code, a propagated open error, a hit
(first candidate whose table resolved) with that candidate's index, or falling
through to the pawn-file-type dispatch. -/
inductive LoopRes where
  | panicked
  | err (e : IOErr) (tb : Tablebase)
  | hit (t : Nat) (idx : Nat) (tb : Tablebase)
  | fallthrough (tb : Tablebase)

/-- The `for bishop_parity in &mb_info.parity_index[..num_parities]` loop of
`select_table`: for each candidate, convert both raw parity codes (panicking
on out-of-range codes, as `.expect("bishop parity")` does), look the keyed
table up, and return the first hit with that candidate's index. -/
def parityLoop (openFn : String → Except IOErr Nat) (base : TableKey) :
    List ParityIndex → Tablebase → LoopRes
  | [], tb => .fallthrough tb
  | p :: rest, tb =>
    match BishopParity.tryFrom p.bishopParityW, BishopParity.tryFrom p.bishopParityB with
    | some w, some b =>
      match open_table openFn tb { base with bishop_parity := ⟨w, b⟩ } with
      | (.error e, tb') => .err e tb'
      | (.ok (some t), tb') => .hit t p.index tb'
      | (.ok none, tb') => parityLoop openFn base rest tb'
    | _, _ => .panicked

/-- The tail of `select_table` after the pawn-file-type dispatch resolved an
index: the sentinel fails selection, otherwise one final registry lookup with
the resolved pawn-file variant. -/
def finishPawn (openFn : String → Except IOErr Nat) (tb : Tablebase) (base : TableKey)
    (pft : PawnFileType) (index : Nat) : Except IOErr (Option (Nat × Nat)) × Tablebase :=
  if index = ALL_ONES then (.ok none, tb)
  else
    match open_table openFn tb { base with pawn_file_type := pft } with
    | (.error e, tb') => (.error e, tb')
    | (.ok o, tb') => (.ok (o.map (fun t => (t, index))), tb')

/-- The part of a `shakmaty::Chess` position that the probed code inspects
directly: the board's per-side piece-role counts (`pos.board().material()`;
square placement is consumed only by the external classifier), the side to
move, and the two library predicates `is_insufficient_material` and
`castles().any()` (chess-rules functionality outside this core, carried as
fields). -/
structure Position where
  board : Material
  turn : Color
  insufficientMaterial : Bool
  castlesAny : Bool

/-- The base key built at the top of `select_table`: the position's material
and side to move, the classifier's king-configuration bucket, pawn-file
variant tentatively `Free`, bishop parities `None`. -/
def baseKey (pos : Position) (mb : MBInfo) (tt : TableType) : TableKey :=
  { material := pos.board
    pawn_file_type := .Free
    bishop_parity := ⟨.None, .None⟩
    side := pos.turn
    kk_index := ⟨mb.kk_index⟩
    table_type := tt }

/-- `Tablebase::select_table`: walk the classifier's bishop-parity candidates
first; otherwise dispatch on the primary pawn-file-type classification
(panicking on an unknown code, as `.expect("pawn file type")` does), with the
Bp1/Dp2 open-file substitution rules, and finish with the resolved index. -/
def select_table (openFn : String → Except IOErr Nat) (tb : Tablebase)
    (pos : Position) (mb : MBInfo) (tt : TableType) :
    PResult (Except IOErr (Option (Nat × Nat)) × Tablebase) :=
  let table_key : TableKey := baseKey pos mb tt
  match parityLoop openFn table_key (mb.parity_index.take mb.num_parities) tb with
  | .panicked => .panicked
  | .err e tb' => .ok (.error e, tb')
  | .hit t idx tb' => .ok (.ok (some (t, idx)), tb')
  | .fallthrough tb' =>
    match PawnFileType.tryFrom mb.pawn_file_type with
    | none => .panicked
    | some .Free => .ok (finishPawn openFn tb' table_key .Free ALL_ONES)
    | some .Bp1 =>
      if mb.index_op_11 ≠ ALL_ONES then
        match open_table openFn tb' { table_key with pawn_file_type := .Op1 } with
        | (.error e, tb2) => .ok (.error e, tb2)
        | (.ok (some t), tb2) => .ok (.ok (some (t, mb.index_op_11)), tb2)
        | (.ok none, tb2) => .ok (finishPawn openFn tb2 table_key .Bp1 mb.index_bp_11)
      else .ok (finishPawn openFn tb' table_key .Bp1 mb.index_bp_11)
    | some .Op1 => .ok (finishPawn openFn tb' table_key .Op1 mb.index_op_11)
    | some .Op21 => .ok (finishPawn openFn tb' table_key .Op21 mb.index_op_21)
    | some .Op12 => .ok (finishPawn openFn tb' table_key .Op12 mb.index_op_12)
    | some .Op22 => .ok (finishPawn openFn tb' table_key .Op22 mb.index_op_22)
    | some .Dp2 =>
      if mb.index_op_22 ≠ ALL_ONES then
        match open_table openFn tb' { table_key with pawn_file_type := .Op22 } with
        | (.error e, tb2) => .ok (.error e, tb2)
        | (.ok (some t), tb2) => .ok (.ok (some (t, mb.index_op_22)), tb2)
        | (.ok none, tb2) => .ok (finishPawn openFn tb2 table_key .Dp2 mb.index_dp_22)
      else .ok (finishPawn openFn tb' table_key .Dp2 mb.index_dp_22)
    | some .Op31 => .ok (finishPawn openFn tb' table_key .Op31 mb.index_op_31)
    | some .Op13 => .ok (finishPawn openFn tb' table_key .Op13 mb.index_op_13)
    | some .Op41 => .ok (finishPawn openFn tb' table_key .Op41 mb.index_op_41)
    | some .Op14 => .ok (finishPawn openFn tb' table_key .Op14 mb.index_op_14)
    | some .Op32 => .ok (finishPawn openFn tb' table_key .Op32 mb.index_op_32)
    | some .Op23 => .ok (finishPawn openFn tb' table_key .Op23 mb.index_op_23)
    | some .Op33 => .ok (finishPawn openFn tb' table_key .Op33 mb.index_op_33)
    | some .Op42 => .ok (finishPawn openFn tb' table_key .Op42 mb.index_op_42)
    | some .Op24 => .ok (finishPawn openFn tb' table_key .Op24 mb.index_op_24)

/-- Modelled from the spec: `crate::table::MbValue`, the result of the binary
table reader's `read value at index` operation (the reader's file
`mbeval/src/table.rs` is not among the probed sources; the spec describes the
outcome set as an unresolved/unknown marker, a one-byte distance-to-conversion
count, or a marker meaning the true value exceeds what this table encodes). -/
inductive MbValue where
  | Dtc (n : Nat)
  | MaybeHighDtc
  | Unresolved
deriving DecidableEq, Repr

/-- `enum SideValue`: outcome of one single-sided probe. -/
inductive SideValue where
  | Dtc (n : Nat)
  | Unresolved
deriving DecidableEq, Repr

/-- `pub enum Value`: the externally visible probe result. -/
inductive Value where
  | Draw
  | Dtc (n : Int)
deriving DecidableEq, Repr

/-- `fn strength`: material-strength score of one side (pawn 1, knight 3,
bishop 3, rook 5, queen 9; the king is not counted). -/
def strength (board : Material) (color : Color) : Nat :=
  (board.get color).pawn
    + (board.get color).knight * 3
    + (board.get color).bishop * 3
    + (board.get color).rook * 5
    + (board.get color).queen * 9

/-- `Tablebase::probe_side`: the single-sided probe.  A side with fewer than
two pieces total (the lone-king case) short-circuits to `Unresolved`; a failed
classifier call (`mbeval_get_mb_info` returning non-zero, here `classify`
returning `none`) yields `none`; a failed selection yields `none`; otherwise
the table is read at the selected index, a definite value becomes `Dtc`, the
overflow marker yields `none` (the source's `// TODO` branch), and the
unresolved marker becomes `Unresolved`. -/
def probe_side (classify : Position → Option MBInfo)
    (openFn : String → Except IOErr Nat) (readMb : Nat → Nat → Except IOErr MbValue)
    (tb : Tablebase) (pos : Position) :
    PResult (Except IOErr (Option SideValue) × Tablebase) :=
  if pos.board.white.total ≤ 1 then .ok (.ok (some .Unresolved), tb)
  else
    match classify pos with
    | none => .ok (.ok none, tb)
    | some mb =>
      match select_table openFn tb pos mb .Mb with
      | .panicked => .panicked
      | .ok (.error e, tb') => .ok (.error e, tb')
      | .ok (.ok none, tb') => .ok (.ok none, tb')
      | .ok (.ok (some (t, index)), tb') =>
        match readMb t index with
        | .error e => .ok (.error e, tb')
        | .ok (.Dtc dtc) => .ok (.ok (some (.Dtc dtc)), tb')
        | .ok .MaybeHighDtc => .ok (.ok none, tb')
        | .ok .Unresolved => .ok (.ok (some .Unresolved), tb')

/-- The two-sided probing tail of `Tablebase::probe` (everything after the
orientation normalization): probe the normalized position; a definite distance
is signed by that position's side to move and returned; `none` propagates;
`Unresolved` triggers the mirrored probe (`flip` standing for the library
`flip_position`), whose definite distance is signed by the flipped side to
move, whose `none` propagates, and whose `Unresolved` makes the final value
`Draw`. -/
def probeSides (classify : Position → Option MBInfo) (flip : Position → Position)
    (openFn : String → Except IOErr Nat) (readMb : Nat → Nat → Except IOErr MbValue)
    (tb : Tablebase) (pos : Position) :
    PResult (Except IOErr (Option Value) × Tablebase) :=
  match probe_side classify openFn readMb tb pos with
  | .panicked => .panicked
  | .ok (.error e, tb1) => .ok (.error e, tb1)
  | .ok (.ok none, tb1) => .ok (.ok none, tb1)
  | .ok (.ok (some (.Dtc n)), tb1) =>
    .ok (.ok (some (.Dtc ((n : Int) * pos.turn.fold_wb 1 (-1)))), tb1)
  | .ok (.ok (some .Unresolved), tb1) =>
    let pos2 := flip pos
    match probe_side classify openFn readMb tb1 pos2 with
    | .panicked => .panicked
    | .ok (.error e, tb2) => .ok (.error e, tb2)
    | .ok (.ok none, tb2) => .ok (.ok none, tb2)
    | .ok (.ok (some (.Dtc n)), tb2) =>
      .ok (.ok (some (.Dtc ((n : Int) * pos2.turn.fold_wb 1 (-1)))), tb2)
    | .ok (.ok (some .Unresolved), tb2) => .ok (.ok (some .Draw), tb2)

/-- `Tablebase::probe`: insufficient material is an immediate draw; more than
9 pieces or any castling rights is an immediate `none`; otherwise the position
is mirrored when black is strictly stronger by `strength`, and the (up to) two
single-sided probes run on the result. -/
def probe (classify : Position → Option MBInfo) (flip : Position → Position)
    (openFn : String → Except IOErr Nat) (readMb : Nat → Nat → Except IOErr MbValue)
    (tb : Tablebase) (pos : Position) :
    PResult (Except IOErr (Option Value) × Tablebase) :=
  if pos.insufficientMaterial then .ok (.ok (some .Draw), tb)
  else if 9 < pos.board.totalCount ∨ pos.castlesAny = true then .ok (.ok none, tb)
  else
    probeSides classify flip openFn readMb tb
      (if strength pos.board .White < strength pos.board .Black then flip pos else pos)

/-- The character loop of `parse_material`: running side starts as given and
each king letter toggles it before the piece (the king itself included) is
counted for the now-active side. -/
def parseMaterialChars : List Char → Color → Material → Option Material
  | [], _, m => some m
  | c :: rest, color, m =>
    match Role.from_char c with
    | none => none
    | some role =>
      let color := if role = .King then color.other else color
      parseMaterialChars rest color (m.bump color role)

/-- `fn parse_material`: length bound 9, then the letter-by-letter decode with
the running side starting as black.  (Rust checks the byte length while
`String.length` counts characters; the two agree on every name all of whose
characters are role letters, and both sides reject every other name, the Rust
decoder because some non-ASCII character fails `Role::from_char`.) -/
def parse_material (name : String) : Option Material :=
  if name.length > 9 then none
  else parseMaterialChars name.data .Black Material.default

/-- `str::strip_suffix`: remove the suffix if present. -/
def stripSuffixStr (s suf : String) : Option String :=
  if suf.data.isSuffixOf s.data then
    some (String.mk (s.data.take (s.data.length - suf.data.length)))
  else none

/-- The 15 pawn-file suffixes of `parse_dirname`, in the source's if-else
order (order-sensitive: `_dp2` is tried before `_op22`). -/
def pawnSuffixes : List (String × PawnFileType) :=
  [("_bp1", .Bp1), ("_op1", .Op1), ("_op21", .Op21), ("_op12", .Op12),
   ("_dp2", .Dp2), ("_op22", .Op22), ("_op31", .Op31), ("_op13", .Op13),
   ("_op41", .Op41), ("_op14", .Op14), ("_op32", .Op32), ("_op23", .Op23),
   ("_op33", .Op33), ("_op42", .Op42), ("_op24", .Op24)]

/-- The pawn-file if-else chain of `parse_dirname`: first matching suffix is
stripped; no match leaves the name with the `Free` tag. -/
def stripPawnSuffix : List (String × PawnFileType) → String → String × PawnFileType
  | [], name => (name, .Free)
  | (suf, pft) :: rest, name =>
    match stripSuffixStr name suf with
    | some n => (n, pft)
    | none => stripPawnSuffix rest name

/-- `fn parse_dirname`, on the directory's base name (the `Path::file_name` /
`to_str` extraction is library plumbing): strip `_out`, then the optional
black and white bishop-parity suffixes, then (only when neither parity suffix
was present) one of the 15 pawn-file suffixes, and decode the rest as the
material signature. -/
def parse_dirname (name : String) : Option (Material × PawnFileType × ByColor BishopParity) :=
  match stripSuffixStr name "_out" with
  | none => none
  | some name =>
    let pb : String × BishopParity :=
      match stripSuffixStr name "_bbo" with
      | some n => (n, .Odd)
      | none =>
        match stripSuffixStr name "_bbe" with
        | some n => (n, .Even)
        | none => (name, .None)
    let pw : String × BishopParity :=
      match stripSuffixStr pb.1 "_wbo" with
      | some n => (n, .Odd)
      | none =>
        match stripSuffixStr pb.1 "_wbe" with
        | some n => (n, .Even)
        | none => (pb.1, .None)
    let pp : String × PawnFileType :=
      if pb.2 = BishopParity.None ∧ pw.2 = BishopParity.None then
        stripPawnSuffix pawnSuffixes pw.1
      else (pw.1, .Free)
    match parse_material pp.1 with
    | none => none
    | some material => some (material, pp.2, ⟨pw.2, pb.2⟩)

/-- `str::split_once`: split at the first occurrence of the pattern. -/
def splitOnceCs : List Char → List Char → Option (List Char × List Char)
  | [], _ => none
  | c :: rest, pat =>
    if pat.isPrefixOf (c :: rest) then some ([], (c :: rest).drop pat.length)
    else
      match splitOnceCs rest pat with
      | some (l, r) => some (c :: l, r)
      | none => none

/-- Rust `str::parse::<u32>` (an optional leading plus sign, then decimal
digits, value below `2^32`), as used for the king-configuration bucket. -/
def parseU32 (s : List Char) : Option Nat :=
  let digits := match s with
    | '+' :: rest => rest
    | _ => s
  if digits = [] then none
  else if digits.all (fun c => c.isDigit) then
    let v := digits.foldl (fun acc c => acc * 10 + (c.toNat - 48)) 0
    if v < 2 ^ 32 then some v else none
  else none

/-- `fn parse_filename`, on the file's base name: strip the table-kind
extension, split on the first `_b_` (else `_w_`) marker fixing the side, and
decode the material prefix and the numeric king-configuration bucket. -/
def parse_filename (name : String) : Option (Material × Color × KkIndex × TableType) :=
  let pt : Option (String × TableType) :=
    match stripSuffixStr name ".mb" with
    | some n => some (n, .Mb)
    | none =>
      match stripSuffixStr name ".hi" with
      | some n => some (n, .HighDtc)
      | none => none
  match pt with
  | none => none
  | some (name, table_type) =>
    let ps : Option (String × Color × List Char) :=
      match splitOnceCs name.data "_b_".data with
      | some (l, r) => some (String.mk l, .Black, r)
      | none =>
        match splitOnceCs name.data "_w_".data with
        | some (l, r) => some (String.mk l, .White, r)
        | none => none
    match ps with
    | none => none
    | some (matName, side, kkCs) =>
      match parse_material matName, parseU32 kkCs with
      | some material, some kk => some (material, side, ⟨kk⟩, table_type)
      | _, _ => none

/-- One immediate subdirectory of the registration root, abstracted to its
base name and the base names of its files (the `read_dir` traversal and its
I/O errors are library plumbing outside this core). -/
structure DirListing where
  dirname : String
  files : List String

/-- The per-directory body of `Tablebase::add_path`: a directory that decodes
registers every file that decodes with a matching material signature. -/
def addDir (acc : List (TableKey × Entry) × Nat) (d : DirListing) :
    List (TableKey × Entry) × Nat :=
  match parse_dirname d.dirname with
  | none => acc
  | some (dirMat, pft, bp) =>
    d.files.foldl
      (fun acc file =>
        match parse_filename file with
        | none => acc
        | some (fileMat, side, kk, tt) =>
          if dirMat = fileMat then
            (insertTable acc.1
              { material := fileMat, pawn_file_type := pft, bishop_parity := bp,
                side := side, kk_index := kk, table_type := tt }
              (d.dirname ++ "/" ++ file), acc.2 + 1)
          else acc)
      acc

/-- `Tablebase::add_path` over the abstract listing of the root directory's
subdirectories, returning the updated registry and the count of newly
registered tables.  (The call forwarding the root to the external native
classifier has no effect on the registry state modelled here.) -/
def add_path (tb : Tablebase) (listing : List DirListing) : Tablebase × Nat :=
  let r := listing.foldl addDir (tb.tables, 0)
  ({ tb with tables := r.1 }, r.2)

/-! ### Registry lemmas -/

/-- The once-cell currently stored for a key, if the key is registered. -/
def cellOf (tb : Tablebase) (k : TableKey) : Option Nat :=
  match findEntry tb.tables k with
  | some (_, c) => c
  | none => none

theorem open_table_absent (openFn : String → Except IOErr Nat) (tb : Tablebase)
    (key : TableKey) (h : findEntry tb.tables key = none) :
    open_table openFn tb key = (.ok none, tb) := by
  simp [open_table, h]

theorem open_table_cached (openFn : String → Except IOErr Nat) (tb : Tablebase)
    (key : TableKey) (path : String) (t : Nat)
    (h : findEntry tb.tables key = some (path, some t)) :
    open_table openFn tb key = (.ok (some t), tb) := by
  simp [open_table, h]

theorem open_table_fresh (openFn : String → Except IOErr Nat) (tb : Tablebase)
    (key : TableKey) (path : String) (t : Nat)
    (h : findEntry tb.tables key = some (path, none)) (ho : openFn path = .ok t) :
    open_table openFn tb key =
      (.ok (some t), { tables := setCell tb.tables key t, opens := tb.opens + 1 }) := by
  simp [open_table, h, ho]

theorem findEntry_setCell_self (l : List (TableKey × Entry)) (k : TableKey)
    (p : String) (c : Option Nat) (t : Nat) (h : findEntry l k = some (p, c)) :
    findEntry (setCell l k t) k = some (p, some t) := by
  induction l with
  | nil => simp [findEntry] at h
  | cons e rest ih =>
    obtain ⟨k2, p2, c2⟩ := e
    by_cases hk : k2 = k
    · subst hk
      simp [findEntry] at h
      have hp : p2 = p := congrArg Prod.fst h
      simp [findEntry, setCell, hp]
    · simp [findEntry, setCell, hk] at h ⊢
      exact ih h

theorem findEntry_setCell_ne (l : List (TableKey × Entry)) (k k2 : TableKey)
    (t : Nat) (h : k2 ≠ k) :
    findEntry (setCell l k t) k2 = findEntry l k2 := by
  induction l with
  | nil => simp [setCell]
  | cons e rest ih =>
    obtain ⟨ke, pe, ce⟩ := e
    by_cases hk : ke = k
    · subst hk
      have hne : ¬ke = k2 := fun hh => h hh.symm
      simp [findEntry, setCell, hne]
    · simp only [setCell, if_neg hk, findEntry]
      split <;> simp [*]

theorem cellOf_open_table_preserved (openFn : String → Except IOErr Nat)
    (tb : Tablebase) (k key2 : TableKey) (t : Nat) (h : cellOf tb k = some t) :
    cellOf (open_table openFn tb key2).2 k = some t := by
  unfold open_table
  cases hf : findEntry tb.tables key2 with
  | none => simpa using h
  | some e =>
    obtain ⟨path, cell⟩ := e
    cases cell with
    | some u => simpa using h
    | none =>
      cases ho : openFn path with
      | error e => simpa [ho] using h
      | ok u =>
        simp only [ho]
        by_cases hk : k = key2
        · subst hk
          simp [cellOf, hf] at h
        · simpa [cellOf, findEntry_setCell_ne tb.tables key2 k u hk] using h

/-- `n` repeated lookups of the same key: the list of the `n` results and the
final registry state. -/
def lookupN (openFn : String → Except IOErr Nat) (key : TableKey) :
    Nat → Tablebase → List (Except IOErr (Option Nat)) × Tablebase
  | 0, tb => ([], tb)
  | n + 1, tb =>
    let r := open_table openFn tb key
    let rs := lookupN openFn key n r.2
    (r.1 :: rs.1, rs.2)

theorem lookupN_cached (openFn : String → Except IOErr Nat) (key : TableKey)
    (path : String) (t : Nat) :
    ∀ (n : Nat) (tb : Tablebase), findEntry tb.tables key = some (path, some t) →
      lookupN openFn key n tb = (List.replicate n (.ok (some t)), tb) := by
  intro n
  induction n with
  | zero => intro tb _; simp [lookupN]
  | succ n ih =>
    intro tb h
    simp [lookupN, open_table_cached openFn tb key path t h, ih tb h, List.replicate]

/-- The claim's lazy-open contract, one registry behind.  C4 bundles the three
registry facts below. -/
theorem lookupN_fresh (openFn : String → Except IOErr Nat) (key : TableKey)
    (path : String) (t : Nat) (n : Nat) (tb : Tablebase)
    (h : findEntry tb.tables key = some (path, none)) (ho : openFn path = .ok t) :
    lookupN openFn key (n + 1) tb =
      (List.replicate (n + 1) (.ok (some t)),
        { tables := setCell tb.tables key t, opens := tb.opens + 1 }) := by
  have hstep := open_table_fresh openFn tb key path t h ho
  have hcached : findEntry (setCell tb.tables key t) key = some (path, some t) :=
    findEntry_setCell_self tb.tables key path none t h
  simp [lookupN, hstep,
    lookupN_cached openFn key path t n { tables := setCell tb.tables key t, opens := tb.opens + 1 } hcached,
    List.replicate]

/-! ### Concrete fixtures used by witnesses and counterexamples -/

/-- KQ vs KR material (the signature `kqkr`). -/
def witMat : Material := { white := ⟨0, 0, 0, 0, 1, 1⟩, black := ⟨0, 0, 0, 1, 0, 1⟩ }

/-- A KQ-vs-KR position, white to move, no castling rights. -/
def witPos : Position := ⟨witMat, .White, false, false⟩

/-- The base table key `select_table` builds for `witPos` with `kk_index` 7. -/
def witBase : TableKey := ⟨witMat, .Free, ⟨.None, .None⟩, .White, ⟨7⟩, .Mb⟩

/-- A registry with one unopened entry for `witBase`. -/
def witTbU : Tablebase := ⟨[(witBase, "p", none)], 0⟩

/-- The empty registry. -/
def witTbE : Tablebase := ⟨[], 0⟩

/-- A file opener that always yields handle 42. -/
def witOpen : String → Except IOErr Nat := fun _ => .ok 42

/-- A color-mirroring function standing for the library `flip_position`. -/
def witFlip : Position → Position := fun p =>
  ⟨⟨p.board.black, p.board.white⟩, p.turn.other, p.insufficientMaterial, p.castlesAny⟩

/-- C4: registry lookup returns `none` when no path is registered for the
key; otherwise, when the backing file opens successfully, it is opened at most
once across any number of repeated lookups with the same key (exactly one open
for a fresh entry, none for an already-opened one), every lookup observing the
same fully-initialized handle; and no entry's handle is ever replaced after a
first successful open. -/
theorem lookup_lazy_open_exactly_once
    (openFn : String → Except IOErr Nat) (tb : Tablebase) (key : TableKey) :
    (findEntry tb.tables key = none → open_table openFn tb key = (.ok none, tb))
    ∧ (∀ path t n, findEntry tb.tables key = some (path, none) → openFn path = .ok t →
        lookupN openFn key (n + 1) tb =
          (List.replicate (n + 1) (.ok (some t)),
            { tables := setCell tb.tables key t, opens := tb.opens + 1 }))
    ∧ (∀ path t n, findEntry tb.tables key = some (path, some t) →
        lookupN openFn key n tb = (List.replicate n (.ok (some t)), tb))
    ∧ (∀ key2 t, cellOf tb key = some t →
        cellOf (open_table openFn tb key2).2 key = some t) := by
  refine ⟨open_table_absent openFn tb key, ?_, ?_, ?_⟩
  · intro path t n h ho
    exact lookupN_fresh openFn key path t n tb h ho
  · intro path t n h
    exact lookupN_cached openFn key path t n tb h
  · intro key2 t h
    exact cellOf_open_table_preserved openFn tb key key2 t h

/-- Witness for C4: three repeated lookups of the single fresh entry open the
file once and all return handle 42; lookup in the empty registry is `none`. -/
theorem lookup_lazy_open_exactly_once_witness :
    lookupN witOpen witBase (2 + 1) witTbU =
      (List.replicate (2 + 1) (.ok (some 42)),
        { tables := setCell witTbU.tables witBase 42, opens := witTbU.opens + 1 })
    ∧ open_table witOpen witTbE witBase = (.ok none, witTbE) :=
  ⟨(lookup_lazy_open_exactly_once witOpen witTbU witBase).2.1 "p" 42 2 rfl rfl,
    (lookup_lazy_open_exactly_once witOpen witTbE witBase).1 rfl⟩

/-- Candidates whose converted parity keys are not registered are skipped by
the bishop-parity loop without touching the registry state. -/
theorem parityLoop_append_misses (openFn : String → Except IOErr Nat)
    (base : TableKey) (tb : Tablebase) (misses l : List ParityIndex)
    (hmiss : ∀ q ∈ misses, ∃ w2 b2, BishopParity.tryFrom q.bishopParityW = some w2 ∧
        BishopParity.tryFrom q.bishopParityB = some b2 ∧
        findEntry tb.tables { base with bishop_parity := ⟨w2, b2⟩ } = none) :
    parityLoop openFn base (misses ++ l) tb = parityLoop openFn base l tb := by
  induction misses with
  | nil => rfl
  | cons q qs ih =>
    obtain ⟨w2, b2, hw2, hb2, hf⟩ := hmiss q (by simp)
    have hopen := open_table_absent openFn tb _ hf
    simp only [List.cons_append, parityLoop, hw2, hb2, hopen]
    exact ih (fun q2 hq2 => hmiss q2 (by simp [hq2]))

/-- C2: `select_table` tries the classifier's candidate bishop-parity pairs in
the order supplied; all candidates before the first one whose table is
registered (and opens) are skipped, and that first hit is returned immediately
together with that candidate's associated index — in particular, with two
candidates of which only the second is registered, the second candidate's
table and index are selected, never the first's nor the native fallback
index. -/
theorem select_table_first_registered_candidate
    (openFn : String → Except IOErr Nat) (tb tb' : Tablebase) (pos : Position)
    (mb : MBInfo) (tt : TableType) (misses rest : List ParityIndex)
    (p : ParityIndex) (w b : BishopParity) (t : Nat)
    (hc : mb.parity_index.take mb.num_parities = misses ++ p :: rest)
    (hmiss : ∀ q ∈ misses, ∃ w2 b2, BishopParity.tryFrom q.bishopParityW = some w2 ∧
        BishopParity.tryFrom q.bishopParityB = some b2 ∧
        findEntry tb.tables { baseKey pos mb tt with bishop_parity := ⟨w2, b2⟩ } = none)
    (hw : BishopParity.tryFrom p.bishopParityW = some w)
    (hb : BishopParity.tryFrom p.bishopParityB = some b)
    (hhit : open_table openFn tb { baseKey pos mb tt with bishop_parity := ⟨w, b⟩ } =
      (.ok (some t), tb')) :
    select_table openFn tb pos mb tt = .ok (.ok (some (t, p.index)), tb') := by
  have hloop : parityLoop openFn (baseKey pos mb tt)
      (mb.parity_index.take mb.num_parities) tb = .hit t p.index tb' := by
    rw [hc, parityLoop_append_misses openFn (baseKey pos mb tt) tb misses (p :: rest) hmiss]
    simp [parityLoop, hw, hb, hhit]
  simp [select_table, hloop]

/-- The classifier output of the spec's fallback-determinism scenario: two
candidate bishop-parity pairs, `(None, None)` with index 11 and
`(Even, Even)` with index 22. -/
def witMb2 : MBInfo :=
  ⟨7, 2, [⟨0, 0, 11⟩, ⟨1, 1, 22⟩], 0, 0, 0, 0, 0, 0, 0, 0, 0, 0, 0, 0, 0, 0, 0, 0⟩

/-- The second candidate's table key (bishop parities `Even`/`Even`). -/
def witKeyP2 : TableKey := { witBase with bishop_parity := ⟨.Even, .Even⟩ }

/-- A registry where only the second candidate's table is registered. -/
def witTb2 : Tablebase := ⟨[(witKeyP2, "path2", none)], 0⟩

/-- Witness for C2: with only the second of the two candidates registered,
selection returns the second candidate's table (handle 42) and index 22. -/
theorem select_table_first_registered_candidate_witness :
    select_table witOpen witTb2 witPos witMb2 .Mb =
      .ok (.ok (some (42, 22)),
        { tables := setCell witTb2.tables witKeyP2 42, opens := witTb2.opens + 1 }) := by
  have hhit := open_table_fresh witOpen witTb2 witKeyP2 "path2" 42 (by decide) rfl
  exact select_table_first_registered_candidate witOpen witTb2 _ witPos witMb2 .Mb
    [⟨0, 0, 11⟩] [] ⟨1, 1, 22⟩ .Even .Even 42 rfl
    (by
      intro q hq
      simp only [List.mem_singleton] at hq
      subst hq
      exact ⟨.None, .None, by decide, by decide, by decide⟩)
    (by decide) (by decide) hhit

/-- C3: the Bp1 ("1v1 same-file-blocked") and Dp2 ("2v2 doubled") pawn-file
types substitute their open-file variants, given that no bishop-parity
candidate matched: when the open-file index is not the all-ones sentinel and
the substituted variant's table is registered, that table is returned with the
substituted index; when the substituted variant is not registered, or the
open-file index is the sentinel, the engine falls back to the type's own
native index (`index_bp_11` resp. `index_dp_22`) and looks up the type's own
table. -/
theorem select_table_pawn_substitution
    (openFn : String → Except IOErr Nat) (tb : Tablebase) (pos : Position)
    (mb : MBInfo) (tt : TableType)
    (hloop : parityLoop openFn (baseKey pos mb tt)
      (mb.parity_index.take mb.num_parities) tb = .fallthrough tb) :
    (∀ t tb2, PawnFileType.tryFrom mb.pawn_file_type = some .Bp1 →
      mb.index_op_11 ≠ ALL_ONES →
      open_table openFn tb { baseKey pos mb tt with pawn_file_type := .Op1 } =
        (.ok (some t), tb2) →
      select_table openFn tb pos mb tt = .ok (.ok (some (t, mb.index_op_11)), tb2))
    ∧ (∀ o tb2, PawnFileType.tryFrom mb.pawn_file_type = some .Bp1 →
      findEntry tb.tables { baseKey pos mb tt with pawn_file_type := .Op1 } = none →
      mb.index_bp_11 ≠ ALL_ONES →
      open_table openFn tb { baseKey pos mb tt with pawn_file_type := .Bp1 } = (.ok o, tb2) →
      select_table openFn tb pos mb tt =
        .ok (.ok (o.map fun u => (u, mb.index_bp_11)), tb2))
    ∧ (∀ o tb2, PawnFileType.tryFrom mb.pawn_file_type = some .Bp1 →
      mb.index_op_11 = ALL_ONES →
      mb.index_bp_11 ≠ ALL_ONES →
      open_table openFn tb { baseKey pos mb tt with pawn_file_type := .Bp1 } = (.ok o, tb2) →
      select_table openFn tb pos mb tt =
        .ok (.ok (o.map fun u => (u, mb.index_bp_11)), tb2))
    ∧ (∀ t tb2, PawnFileType.tryFrom mb.pawn_file_type = some .Dp2 →
      mb.index_op_22 ≠ ALL_ONES →
      open_table openFn tb { baseKey pos mb tt with pawn_file_type := .Op22 } =
        (.ok (some t), tb2) →
      select_table openFn tb pos mb tt = .ok (.ok (some (t, mb.index_op_22)), tb2))
    ∧ (∀ o tb2, PawnFileType.tryFrom mb.pawn_file_type = some .Dp2 →
      findEntry tb.tables { baseKey pos mb tt with pawn_file_type := .Op22 } = none →
      mb.index_dp_22 ≠ ALL_ONES →
      open_table openFn tb { baseKey pos mb tt with pawn_file_type := .Dp2 } = (.ok o, tb2) →
      select_table openFn tb pos mb tt =
        .ok (.ok (o.map fun u => (u, mb.index_dp_22)), tb2))
    ∧ (∀ o tb2, PawnFileType.tryFrom mb.pawn_file_type = some .Dp2 →
      mb.index_op_22 = ALL_ONES →
      mb.index_dp_22 ≠ ALL_ONES →
      open_table openFn tb { baseKey pos mb tt with pawn_file_type := .Dp2 } = (.ok o, tb2) →
      select_table openFn tb pos mb tt =
        .ok (.ok (o.map fun u => (u, mb.index_dp_22)), tb2)) := by
  refine ⟨?_, ?_, ?_, ?_, ?_, ?_⟩
  · intro t tb2 hpft h11 hopen
    simp [select_table, hloop, hpft, h11, hopen]
  · intro o tb2 hpft hfind hbp hopen
    have hOp1 := open_table_absent openFn tb _ hfind
    by_cases h11 : mb.index_op_11 = ALL_ONES
    · simp [select_table, hloop, hpft, h11, finishPawn, hbp, hopen]
    · simp [select_table, hloop, hpft, h11, hOp1, finishPawn, hbp, hopen]
  · intro o tb2 hpft h11 hbp hopen
    simp [select_table, hloop, hpft, h11, finishPawn, hbp, hopen]
  · intro t tb2 hpft h22 hopen
    simp [select_table, hloop, hpft, h22, hopen]
  · intro o tb2 hpft hfind hdp hopen
    have hOp22 := open_table_absent openFn tb _ hfind
    by_cases h22 : mb.index_op_22 = ALL_ONES
    · simp [select_table, hloop, hpft, h22, finishPawn, hdp, hopen]
    · simp [select_table, hloop, hpft, h22, hOp22, finishPawn, hdp, hopen]
  · intro o tb2 hpft h22 hdp hopen
    simp [select_table, hloop, hpft, h22, finishPawn, hdp, hopen]

/-- Classifier output of pawn-file type Bp1 with open-file index 3 and native
index 5, and no bishop-parity candidates. -/
def witMbBp : MBInfo := ⟨7, 0, [], 1, 3, 5, 0, 0, 0, 0, 0, 0, 0, 0, 0, 0, 0, 0, 0⟩

/-- The substituted open-file variant's key. -/
def witKeyOp1 : TableKey := { witBase with pawn_file_type := .Op1 }

/-- The Bp1 type's own (native) key. -/
def witKeyBp1 : TableKey := { witBase with pawn_file_type := .Bp1 }

/-- A registry where the substituted Op1 variant is registered. -/
def witTbOp1 : Tablebase := ⟨[(witKeyOp1, "op1", none)], 0⟩

/-- A registry where only the native Bp1 table is registered. -/
def witTbBp1 : Tablebase := ⟨[(witKeyBp1, "bp1", none)], 0⟩

/-- Witness for C3: with the Op1 variant registered, selection substitutes it
and returns index 3; with only the native Bp1 table registered, selection
falls back to it with the native index 5. -/
theorem select_table_pawn_substitution_witness :
    select_table witOpen witTbOp1 witPos witMbBp .Mb =
      .ok (.ok (some (42, 3)),
        { tables := setCell witTbOp1.tables witKeyOp1 42, opens := witTbOp1.opens + 1 })
    ∧ select_table witOpen witTbBp1 witPos witMbBp .Mb =
      .ok (.ok (some (42, 5)),
        { tables := setCell witTbBp1.tables witKeyBp1 42, opens := witTbBp1.opens + 1 }) := by
  constructor
  · have hopen := open_table_fresh witOpen witTbOp1 witKeyOp1 "op1" 42 (by decide) rfl
    exact (select_table_pawn_substitution witOpen witTbOp1 witPos witMbBp .Mb rfl).1
      42 _ (by decide) (by decide) hopen
  · have hopen := open_table_fresh witOpen witTbBp1 witKeyBp1 "bp1" 42 (by decide) rfl
    have h := (select_table_pawn_substitution witOpen witTbBp1 witPos witMbBp .Mb rfl).2.1
      (some 42) _ (by decide) (by decide) (by decide) hopen
    simpa using h

/-- C5: a position with more than 9 pieces, or with castling rights on either
side, makes `probe` return `none` ("unresolved"/out of coverage) with the
registry state untouched and independently of the classifier, the mirroring
function, the file opener and the reader — no table or filesystem access is
attempted.  (Only an insufficient-material position returns earlier, as a
draw, hence the first hypothesis.) -/
theorem probe_out_of_coverage_guard
    (classify : Position → Option MBInfo) (flip : Position → Position)
    (openFn : String → Except IOErr Nat) (readMb : Nat → Nat → Except IOErr MbValue)
    (tb : Tablebase) (pos : Position)
    (h1 : pos.insufficientMaterial = false)
    (h2 : 9 < pos.board.totalCount ∨ pos.castlesAny = true) :
    probe classify flip openFn readMb tb pos = .ok (.ok none, tb) := by
  simp [probe, h1, h2]

/-- A 10-piece position (white: king and 4 queens; black: king and 4 rooks). -/
def witPos10 : Position := ⟨{ white := ⟨0, 0, 0, 0, 4, 1⟩, black := ⟨0, 0, 0, 4, 0, 1⟩ }, .White, false, false⟩

/-- Witness for C5: the 10-piece position probes to `none` with the registry
untouched. -/
theorem probe_out_of_coverage_guard_witness :
    probe (fun _ => none) witFlip witOpen (fun _ _ => .ok .Unresolved) witTbE witPos10 =
      .ok (.ok none, witTbE) :=
  probe_out_of_coverage_guard (fun _ => none) witFlip witOpen (fun _ _ => .ok .Unresolved)
    witTbE witPos10 rfl (by decide)

/-- C6: a position detected as insufficient material makes `probe` return a
draw immediately — the result and the untouched registry state are independent
of the classifier, the mirroring function, the opener and the reader, so no
guard, normalization, classifier call or table access happens first. -/
theorem probe_insufficient_material_draw
    (classify : Position → Option MBInfo) (flip : Position → Position)
    (openFn : String → Except IOErr Nat) (readMb : Nat → Nat → Except IOErr MbValue)
    (tb : Tablebase) (pos : Position)
    (h : pos.insufficientMaterial = true) :
    probe classify flip openFn readMb tb pos = .ok (.ok (some .Draw), tb) := by
  simp [probe, h]

/-- The bare-kings position (insufficient material for either side). -/
def witPosKK : Position := ⟨{ white := ⟨0, 0, 0, 0, 0, 1⟩, black := ⟨0, 0, 0, 0, 0, 1⟩ }, .White, true, false⟩

/-- Witness for C6: the bare-kings position probes to a draw with the registry
untouched. -/
theorem probe_insufficient_material_draw_witness :
    probe (fun _ => none) witFlip witOpen (fun _ _ => .ok .Unresolved) witTbE witPosKK =
      .ok (.ok (some .Draw), witTbE) :=
  probe_insufficient_material_draw (fun _ => none) witFlip witOpen (fun _ _ => .ok .Unresolved)
    witTbE witPosKK rfl

/-- C7: past the guards, `probe` mirrors the position (by the library
`flip_position`, the parameter `flip`) exactly when black's material-strength
score — pawns + 3·knights + 3·bishops + 5·rooks + 9·queens, the king not
counted — strictly exceeds white's; otherwise the position is probed
unmirrored. -/
theorem probe_orientation_normalization
    (classify : Position → Option MBInfo) (flip : Position → Position)
    (openFn : String → Except IOErr Nat) (readMb : Nat → Nat → Except IOErr MbValue)
    (tb : Tablebase) (pos : Position)
    (h1 : pos.insufficientMaterial = false)
    (h2 : ¬(9 < pos.board.totalCount ∨ pos.castlesAny = true)) :
    (pos.board.white.pawn + pos.board.white.knight * 3 + pos.board.white.bishop * 3
        + pos.board.white.rook * 5 + pos.board.white.queen * 9
      < pos.board.black.pawn + pos.board.black.knight * 3 + pos.board.black.bishop * 3
        + pos.board.black.rook * 5 + pos.board.black.queen * 9 →
      probe classify flip openFn readMb tb pos =
        probeSides classify flip openFn readMb tb (flip pos))
    ∧ (pos.board.black.pawn + pos.board.black.knight * 3 + pos.board.black.bishop * 3
        + pos.board.black.rook * 5 + pos.board.black.queen * 9
      ≤ pos.board.white.pawn + pos.board.white.knight * 3 + pos.board.white.bishop * 3
        + pos.board.white.rook * 5 + pos.board.white.queen * 9 →
      probe classify flip openFn readMb tb pos =
        probeSides classify flip openFn readMb tb pos) := by
  have hsW : strength pos.board .White
      = pos.board.white.pawn + pos.board.white.knight * 3 + pos.board.white.bishop * 3
        + pos.board.white.rook * 5 + pos.board.white.queen * 9 := rfl
  have hsB : strength pos.board .Black
      = pos.board.black.pawn + pos.board.black.knight * 3 + pos.board.black.bishop * 3
        + pos.board.black.rook * 5 + pos.board.black.queen * 9 := rfl
  constructor
  · intro hlt
    have : strength pos.board .White < strength pos.board .Black := by rw [hsW, hsB]; exact hlt
    simp [probe, h1, h2, this]
  · intro hle
    have : ¬strength pos.board .White < strength pos.board .Black := by
      rw [hsW, hsB]; exact Nat.not_lt.mpr hle
    simp [probe, h1, h2, this]

/-- A position where black (a queen) is strictly stronger than white (a rook). -/
def witPosBQ : Position := ⟨{ white := ⟨0, 0, 0, 1, 0, 1⟩, black := ⟨0, 0, 0, 0, 1, 1⟩ }, .White, false, false⟩

/-- Witness for C7: the black-stronger position is probed mirrored, the
white-stronger one unmirrored. -/
theorem probe_orientation_normalization_witness :
    probe (fun _ => none) witFlip witOpen (fun _ _ => .ok .Unresolved) witTbE witPosBQ =
      probeSides (fun _ => none) witFlip witOpen (fun _ _ => .ok .Unresolved) witTbE (witFlip witPosBQ)
    ∧ probe (fun _ => none) witFlip witOpen (fun _ _ => .ok .Unresolved) witTbE witPos =
      probeSides (fun _ => none) witFlip witOpen (fun _ _ => .ok .Unresolved) witTbE witPos :=
  ⟨(probe_orientation_normalization (fun _ => none) witFlip witOpen (fun _ _ => .ok .Unresolved)
      witTbE witPosBQ rfl (by decide)).1 (by decide),
    (probe_orientation_normalization (fun _ => none) witFlip witOpen (fun _ _ => .ok .Unresolved)
      witTbE witPos rfl (by decide)).2 (by decide)⟩

/-- Classifier output with no parity candidates and pawn-file type Free: the
selection engine resolves the all-ones sentinel, i.e. "no applicable index". -/
def witMbFree : MBInfo := ⟨7, 0, [], 0, 0, 0, 0, 0, 0, 0, 0, 0, 0, 0, 0, 0, 0, 0, 0⟩

/-- A reader that always returns the unresolved marker. -/
def witReadU : Nat → Nat → Except IOErr MbValue := fun _ _ => .ok .Unresolved

/-- Counterexample to C1 as stated: at a position accepted past the guards
whose classifier call succeeds but finds no applicable index (pawn-file type
Free, no parity candidates — so table selection fails), `probe_side` returns
`none` ("no data"), not the `Unresolved` outcome the claim requires for this
case. -/
theorem probe_side_selection_miss_yields_none :
    probe_side (fun _ => some witMbFree) witOpen witReadU witTbE witPos =
      .ok (.ok none, witTbE)
    ∧ (.ok (.ok none, witTbE) :
        PResult (Except IOErr (Option SideValue) × Tablebase)) ≠
      .ok (.ok (some .Unresolved), witTbE) := by
  exact ⟨by decide, by decide⟩

/-- C1 as amended: for a position past the lone-king shortcut, `probe_side`
yields "no data" (`none`, ending the whole probe) when the classifier call
fails, and equally when selection fails (no applicable index or no matching
table registered) or the table read returns the overflow marker; it yields
`Unresolved` when the read returns the unresolved marker — and only the
`Unresolved` outcome makes the orchestrator proceed to the mirrored probe and
return a draw when that one is also unresolved. -/
theorem probe_side_no_data_outcomes
    (classify : Position → Option MBInfo) (flip : Position → Position)
    (openFn : String → Except IOErr Nat) (readMb : Nat → Nat → Except IOErr MbValue)
    (tb : Tablebase) (pos : Position) (hW : 1 < pos.board.white.total) :
    (classify pos = none → probe_side classify openFn readMb tb pos = .ok (.ok none, tb))
    ∧ (∀ mb tb2, classify pos = some mb →
        select_table openFn tb pos mb .Mb = .ok (.ok none, tb2) →
        probe_side classify openFn readMb tb pos = .ok (.ok none, tb2))
    ∧ (∀ mb t idx tb2, classify pos = some mb →
        select_table openFn tb pos mb .Mb = .ok (.ok (some (t, idx)), tb2) →
        readMb t idx = .ok .MaybeHighDtc →
        probe_side classify openFn readMb tb pos = .ok (.ok none, tb2))
    ∧ (∀ mb t idx tb2, classify pos = some mb →
        select_table openFn tb pos mb .Mb = .ok (.ok (some (t, idx)), tb2) →
        readMb t idx = .ok .Unresolved →
        probe_side classify openFn readMb tb pos = .ok (.ok (some .Unresolved), tb2))
    ∧ (∀ tb1 tb2, pos.insufficientMaterial = false →
        ¬(9 < pos.board.totalCount ∨ pos.castlesAny = true) →
        ¬strength pos.board .White < strength pos.board .Black →
        probe_side classify openFn readMb tb pos = .ok (.ok (some .Unresolved), tb1) →
        probe_side classify openFn readMb tb1 (flip pos) = .ok (.ok (some .Unresolved), tb2) →
        probe classify flip openFn readMb tb pos = .ok (.ok (some .Draw), tb2)) := by
  have hg : ¬pos.board.white.total ≤ 1 := Nat.not_le.mpr hW
  refine ⟨?_, ?_, ?_, ?_, ?_⟩
  · intro hcl
    simp [probe_side, hg, hcl]
  · intro mb tb2 hcl hsel
    simp [probe_side, hg, hcl, hsel]
  · intro mb t idx tb2 hcl hsel hread
    simp [probe_side, hg, hcl, hsel, hread]
  · intro mb t idx tb2 hcl hsel hread
    simp [probe_side, hg, hcl, hsel, hread]
  · intro tb1 tb2 h1 h2 h3 hp1 hp2
    simp [probe, probeSides, h1, h2, h3, hp1, hp2]

/-- KQ vs lone K material. -/
def witMatKQK : Material := { white := ⟨0, 0, 0, 0, 1, 1⟩, black := ⟨0, 0, 0, 0, 0, 1⟩ }

/-- KQ vs lone K, white to move. -/
def witPosKQK : Position := ⟨witMatKQK, .White, false, false⟩

/-- The base key of the KQ-vs-K position with `kk_index` 7. -/
def witBaseKQK : TableKey := ⟨witMatKQK, .Free, ⟨.None, .None⟩, .White, ⟨7⟩, .Mb⟩

/-- A registry holding the KQ-vs-K table, not yet opened. -/
def witTbKQK : Tablebase := ⟨[(witBaseKQK, "kqk", none)], 0⟩

/-- Classifier output with one parity candidate `(None, None)` at index 99. -/
def witMbHit : MBInfo := ⟨7, 1, [⟨0, 0, 99⟩], 0, 0, 0, 0, 0, 0, 0, 0, 0, 0, 0, 0, 0, 0, 0, 0⟩

/-- Witness for the amended C1: a failed selection propagates as `none`, and
two unresolved single-sided probes (the mirrored one through the lone-king
shortcut) combine to a draw. -/
theorem probe_side_no_data_outcomes_witness :
    probe_side (fun _ => some witMbFree) witOpen witReadU witTbE witPos =
      .ok (.ok none, witTbE)
    ∧ probe (fun _ => some witMbHit) witFlip witOpen witReadU witTbKQK witPosKQK =
      .ok (.ok (some .Draw), ⟨[(witBaseKQK, "kqk", some 42)], 1⟩) :=
  ⟨(probe_side_no_data_outcomes (fun _ => some witMbFree) witFlip witOpen witReadU
      witTbE witPos (by decide)).2.1 witMbFree witTbE rfl (by decide),
    (probe_side_no_data_outcomes (fun _ => some witMbHit) witFlip witOpen witReadU
      witTbKQK witPosKQK (by decide)).2.2.2.2 ⟨[(witBaseKQK, "kqk", some 42)], 1⟩
      ⟨[(witBaseKQK, "kqk", some 42)], 1⟩ rfl (by decide) (by decide) (by decide) (by decide)⟩

/-- The bishop-parity loop cannot panic when every candidate's two parity
codes convert. -/
theorem parityLoop_no_panic (openFn : String → Except IOErr Nat) (base : TableKey)
    (l : List ParityIndex)
    (hv : ∀ q ∈ l, (BishopParity.tryFrom q.bishopParityW).isSome ∧
      (BishopParity.tryFrom q.bishopParityB).isSome) :
    ∀ tb, parityLoop openFn base l tb ≠ .panicked := by
  induction l with
  | nil =>
    intro tb
    simp [parityLoop]
  | cons q qs ih =>
    intro tb
    obtain ⟨hw0, hb0⟩ := hv q (by simp)
    obtain ⟨w, hw⟩ := Option.isSome_iff_exists.mp hw0
    obtain ⟨b, hb⟩ := Option.isSome_iff_exists.mp hb0
    have ih2 := ih (fun q2 hq2 => hv q2 (by simp [hq2]))
    simp only [parityLoop, hw, hb]
    cases hot : open_table openFn tb { base with bishop_parity := ⟨w, b⟩ } with
    | mk r tb2 =>
      cases r with
      | error e => simp
      | ok o =>
        cases o with
        | none => exact ih2 tb2
        | some t => simp

/-- C9 as amended: `select_table` panics when the loop reaches a candidate
(one not preceded by a registered hit) carrying a bishop-parity code outside
the enumeration, or when, all candidates having fallen through, the
`pawn_file_type` code is outside the 16 known codes; and under the
precondition that all codes in the first `num_parities` candidates and the
pawn-file code are within the enumerations, the panic branches are unreachable
and `select_table` is total. -/
theorem select_table_panic_on_reached_invalid_code
    (openFn : String → Except IOErr Nat) (tb : Tablebase) (pos : Position)
    (mb : MBInfo) (tt : TableType) :
    ((∀ q ∈ mb.parity_index.take mb.num_parities,
        (BishopParity.tryFrom q.bishopParityW).isSome ∧
        (BishopParity.tryFrom q.bishopParityB).isSome) →
      (PawnFileType.tryFrom mb.pawn_file_type).isSome →
      select_table openFn tb pos mb tt ≠ .panicked)
    ∧ (∀ misses p rest, mb.parity_index.take mb.num_parities = misses ++ p :: rest →
        (∀ q ∈ misses, ∃ w2 b2, BishopParity.tryFrom q.bishopParityW = some w2 ∧
          BishopParity.tryFrom q.bishopParityB = some b2 ∧
          findEntry tb.tables { baseKey pos mb tt with bishop_parity := ⟨w2, b2⟩ } = none) →
        (BishopParity.tryFrom p.bishopParityW = none ∨
          BishopParity.tryFrom p.bishopParityB = none) →
        select_table openFn tb pos mb tt = .panicked)
    ∧ (parityLoop openFn (baseKey pos mb tt)
        (mb.parity_index.take mb.num_parities) tb = .fallthrough tb →
      PawnFileType.tryFrom mb.pawn_file_type = none →
      select_table openFn tb pos mb tt = .panicked) := by
  refine ⟨?_, ?_, ?_⟩
  · intro hv hpf
    cases hres : parityLoop openFn (baseKey pos mb tt)
        (mb.parity_index.take mb.num_parities) tb with
    | panicked => exact absurd hres (parityLoop_no_panic openFn (baseKey pos mb tt) _ hv tb)
    | err e tb2 => simp [select_table, hres]
    | hit t idx tb2 => simp [select_table, hres]
    | fallthrough tb2 =>
      obtain ⟨pft, hpft⟩ := Option.isSome_iff_exists.mp hpf
      cases pft with
      | Bp1 =>
        simp only [select_table, hres, hpft]
        split
        · cases hot : open_table openFn tb2 { baseKey pos mb tt with pawn_file_type := PawnFileType.Op1 } with
          | mk r tb3 =>
            cases r with
            | error e => simp [hot]
            | ok o => cases o <;> simp [hot]
        · simp
      | Dp2 =>
        simp only [select_table, hres, hpft]
        split
        · cases hot : open_table openFn tb2 { baseKey pos mb tt with pawn_file_type := PawnFileType.Op22 } with
          | mk r tb3 =>
            cases r with
            | error e => simp [hot]
            | ok o => cases o <;> simp [hot]
        · simp
      | _ => simp [select_table, hres, hpft]
  · intro misses p rest hc hmiss hbad
    have hploop : parityLoop openFn (baseKey pos mb tt)
        (mb.parity_index.take mb.num_parities) tb = .panicked := by
      rw [hc, parityLoop_append_misses openFn (baseKey pos mb tt) tb misses (p :: rest) hmiss]
      rcases hbad with hbadW | hbadB
      · cases hB : BishopParity.tryFrom p.bishopParityB <;> simp [parityLoop, hbadW, hB]
      · cases hW : BishopParity.tryFrom p.bishopParityW <;> simp [parityLoop, hbadB, hW]
    simp [select_table, hploop]
  · intro hfall hpf
    simp [select_table, hfall, hpf]

/-- Classifier output carrying invalid codes that are never reached: the first
candidate `(0, 0)` hits a registered table, the second candidate carries the
out-of-range parity code 77 and the pawn-file code is the out-of-range 99. -/
def witMbBad : MBInfo :=
  ⟨7, 2, [⟨0, 0, 11⟩, ⟨77, 77, 5⟩], 99, 0, 0, 0, 0, 0, 0, 0, 0, 0, 0, 0, 0, 0, 0, 0⟩

/-- A registry whose entry for the first candidate's key is already opened
(handle 5). -/
def witTbNN2 : Tablebase := ⟨[(witBase, "nn", some 5)], 0⟩

/-- Counterexample to C9 as stated: a classifier output containing a
bishop-parity code (77) among the first `num_parities` candidates and a
pawn-file code (99) outside the enumerations does not make `select_table`
panic when an earlier candidate hits — it returns the first candidate's table
and index. -/
theorem select_table_invalid_code_no_panic :
    select_table witOpen witTbNN2 witPos witMbBad .Mb = .ok (.ok (some (5, 11)), witTbNN2)
    ∧ select_table witOpen witTbNN2 witPos witMbBad .Mb ≠ .panicked := by
  exact ⟨by decide, by decide⟩

/-- Classifier output whose single parity candidate carries the out-of-range
parity code 77. -/
def witMbBad2 : MBInfo :=
  ⟨7, 1, [⟨77, 0, 11⟩], 0, 0, 0, 0, 0, 0, 0, 0, 0, 0, 0, 0, 0, 0, 0, 0⟩

/-- Witness for the amended C9: with all codes valid, selection does not
panic; with the reached first candidate carrying code 77, it panics. -/
theorem select_table_panic_on_reached_invalid_code_witness :
    select_table witOpen witTbE witPos witMbFree .Mb ≠ .panicked
    ∧ select_table witOpen witTbE witPos witMbBad2 .Mb = .panicked :=
  ⟨(select_table_panic_on_reached_invalid_code witOpen witTbE witPos witMbFree .Mb).1
      (by decide) (by decide),
    (select_table_panic_on_reached_invalid_code witOpen witTbE witPos witMbBad2 .Mb).2.1
      [] ⟨77, 0, 11⟩ [] rfl (by simp) (Or.inl (by decide))⟩

/-- The character loop fails exactly when some character is not a role
letter, whatever the running side and accumulated counts. -/
theorem parseMaterialChars_none_iff (cs : List Char) :
    ∀ side m, (parseMaterialChars cs side m = none ↔ ∃ c ∈ cs, Role.from_char c = none) := by
  induction cs with
  | nil =>
    intro side m
    simp [parseMaterialChars]
  | cons c cs ih =>
    intro side m
    cases h : Role.from_char c with
    | none =>
      simp only [parseMaterialChars, h]
      constructor
      · intro _
        exact ⟨c, by simp, h⟩
      · intro _
        trivial
    | some r =>
      simp only [parseMaterialChars, h]
      constructor
      · intro hnone
        obtain ⟨c2, hm, h2⟩ := (ih _ _).mp hnone
        exact ⟨c2, List.mem_cons_of_mem c hm, h2⟩
      · rintro ⟨c2, hm, h2⟩
        rcases List.mem_cons.mp hm with rfl | hm2
        · rw [h] at h2
          cases h2
        · exact (ih _ _).mpr ⟨c2, hm2, h2⟩

/-- C8: the material signature is decoded letter-by-letter, starting with the
running side on black (the second `ByColor` component) — each king letter
toggles the running side before the piece, that king included, is counted for
it, each non-king letter is counted for the current side — and the decode
fails exactly when the name is longer than 9 or some character is not a valid
role letter. -/
theorem parse_material_characterization (name : String) :
    (parse_material name = none ↔
      9 < name.length ∨ ∃ c ∈ name.data, Role.from_char c = none)
    ∧ (name.length ≤ 9 →
      parse_material name = parseMaterialChars name.data .Black Material.default)
    ∧ (∀ cs side m, parseMaterialChars ('k' :: cs) side m =
        parseMaterialChars cs side.other (m.bump side.other .King))
    ∧ (∀ (c : Char) r cs side m, Role.from_char c = some r → r ≠ .King →
        parseMaterialChars (c :: cs) side m = parseMaterialChars cs side (m.bump side r)) := by
  refine ⟨?_, ?_, ?_, ?_⟩
  · by_cases hl : 9 < name.length
    · simp [parse_material, hl]
    · have h9 : ¬name.length > 9 := hl
      simp only [parse_material]
      rw [if_neg h9, parseMaterialChars_none_iff name.data .Black Material.default]
      constructor
      · intro h
        exact Or.inr h
      · rintro (h | h)
        · exact absurd h hl
        · exact h
  · intro h
    simp [parse_material, Nat.not_lt.mpr h]
  · intro cs side m
    simp [parseMaterialChars, show Role.from_char 'k' = some .King from by decide]
  · intro c r cs side m hc hr
    simp [parseMaterialChars, hc, hr]

/-- Witness for C8: `kqkr` (length 4) decodes through the character loop;
a 10-letter name fails on length; `kxk` fails on the invalid letter `x`; a
king letter toggles the side and counts the king for the toggled side. -/
theorem parse_material_characterization_witness :
    parse_material "kqkr" = parseMaterialChars "kqkr".data .Black Material.default
    ∧ parse_material "kqkrrrrrrr" = none
    ∧ parse_material "kxk" = none
    ∧ parseMaterialChars ['k'] .Black Material.default =
        parseMaterialChars [] Color.Black.other (Material.default.bump Color.Black.other .King) :=
  ⟨(parse_material_characterization "kqkr").2.1 (by decide),
    (parse_material_characterization "kqkrrrrrrr").1.mpr (Or.inl (by decide)),
    (parse_material_characterization "kxk").1.mpr (Or.inr ⟨'x', by decide, by decide⟩),
    (parse_material_characterization "kqkr").2.2.1 [] .Black Material.default⟩

/-- The key under which the kingless signature `qqq` registers. -/
def witKeyQQQ : TableKey :=
  ⟨{ white := ⟨0, 0, 0, 0, 0, 0⟩, black := ⟨0, 0, 0, 0, 3, 0⟩ }, .Free, ⟨.None, .None⟩,
    .White, ⟨0⟩, .Mb⟩

/-- C10: the decoder never checks king counts — every name of at most 9 valid
role letters decodes, including the kingless `qqq` (all pieces attributed to
the side active at the start, black) and the five-king `kkkkk`; and the
kingless directory `qqq_out` with file `qqq_w_0.mb` still registers a table. -/
theorem parse_material_no_king_check :
    (∀ name : String, name.length ≤ 9 → (∀ c ∈ name.data, (Role.from_char c).isSome) →
      (parse_material name).isSome)
    ∧ (parse_material "qqq").isSome
    ∧ (parse_material "kkkkk").isSome
    ∧ (add_path witTbE [⟨"qqq_out", ["qqq_w_0.mb"]⟩]).2 = 1
    ∧ findEntry (add_path witTbE [⟨"qqq_out", ["qqq_w_0.mb"]⟩]).1.tables witKeyQQQ =
        some ("qqq_out/qqq_w_0.mb", none) := by
  refine ⟨?_, by decide, by decide, by decide, by decide⟩
  intro name hl hv
  have h9 : ¬9 < name.length := Nat.not_lt.mpr hl
  simp only [parse_material, if_neg h9, Option.isSome_iff_ne_none, Ne,
    parseMaterialChars_none_iff name.data .Black Material.default]
  rintro ⟨c, hm, hc⟩
  have hs := hv c hm
  simp [hc] at hs

/-- Witness for C10: the kingless five-letter name `rrrqq` decodes. -/
theorem parse_material_no_king_check_witness :
    (parse_material "rrrqq").isSome :=
  parse_material_no_king_check.1 "rrrqq" (by decide) (by decide)

end MbTb
